import Mathlib

/-!
Verification of the Rock-Paper-Scissors-Plus game engine
(`game_state.py`, `game_tools.py`, `game_referee.py`).

The Python code keeps a single mutable `GameState` instance; here every
operation is embedded as an explicit state-passing function
`... → GameState → ... × GameState` (or `GameState → GameState` for the
sole mutator).  Python's `random.random()` and `random.choice` are
modelled by explicit parameters: a rational `r` standing for the uniform
draw in `[0,1)` and an index `choice : Fin 3` standing for the uniform
pick among the three standard moves.
-/

/-- `GameState` from `game_state.py`: the complete per-match record.
`current_round`, `user_score`, `bot_score` start at 0 and are only ever
incremented, so they are embedded as `Nat`. -/
structure GameState where
  current_round : Nat := 0
  user_score : Nat := 0
  bot_score : Nat := 0
  user_bomb_used : Bool := false
  bot_bomb_used : Bool := false
  game_over : Bool := false
  last_user_move : Option String := none
  last_bot_move : Option String := none
  last_round_result : Option String := none
deriving DecidableEq, Repr

/-- Values that appear in the serialized state dictionary: Python ints
(here the non-negative counters), bools, and optional strings. -/
inductive DictValue where
  | nat (n : Nat)
  | bool (b : Bool)
  | str (s : Option String)
deriving DecidableEq, Repr

/-- `GameState.to_dict`: the serialized record, as an association list in
the source's key order. -/
def GameState.to_dict (s : GameState) : List (String × DictValue) :=
  [ ("current_round", DictValue.nat s.current_round),
    ("user_score", DictValue.nat s.user_score),
    ("bot_score", DictValue.nat s.bot_score),
    ("user_bomb_used", DictValue.bool s.user_bomb_used),
    ("bot_bomb_used", DictValue.bool s.bot_bomb_used),
    ("game_over", DictValue.bool s.game_over),
    ("last_user_move", DictValue.str s.last_user_move),
    ("last_bot_move", DictValue.str s.last_bot_move),
    ("last_round_result", DictValue.str s.last_round_result) ]

/-- `GameState.from_dict`: rebuild a state from a dictionary
(`cls(**data)`).  Returns `none` when a required field is missing or has
the wrong type, where Python would raise. -/
def GameState.from_dict (data : List (String × DictValue)) : Option GameState :=
  match data.lookup "current_round", data.lookup "user_score",
        data.lookup "bot_score", data.lookup "user_bomb_used",
        data.lookup "bot_bomb_used", data.lookup "game_over",
        data.lookup "last_user_move", data.lookup "last_bot_move",
        data.lookup "last_round_result" with
  | some (.nat cr), some (.nat us), some (.nat bs), some (.bool ub),
    some (.bool bb), some (.bool go), some (.str lu), some (.str lb),
    some (.str lr) => some ⟨cr, us, bs, ub, bb, go, lu, lb, lr⟩
  | _, _, _, _, _, _, _, _, _ => none

/-- `GameState.reset`: set every field back to its zero value. -/
def GameState.reset (_s : GameState) : GameState :=
  { current_round := 0
    user_score := 0
    bot_score := 0
    user_bomb_used := false
    bot_bomb_used := false
    game_over := false
    last_user_move := none
    last_bot_move := none
    last_round_result := none }

/-- Result dictionary of `validate_move`: `valid`, `reason`, and the
normalized `move` key (present only on success). -/
structure ValidationResult where
  valid : Bool
  reason : String
  move : Option String := none
deriving DecidableEq, Repr

/-- Python `str.lower()`, modelled character-wise. -/
def pyLower (s : String) : String := ⟨s.data.map Char.toLower⟩

/-- Python `str.strip()`: drop leading and trailing whitespace. -/
def pyStrip (s : String) : String :=
  ⟨((s.data.dropWhile Char.isWhitespace).reverse.dropWhile Char.isWhitespace).reverse⟩

/-- The normalization `move.lower().strip()` applied by `validate_move`. -/
def normalize_move (move : String) : String := pyStrip (pyLower move)

/-- The `valid_moves` list of `validate_move`. -/
def valid_moves : List String := ["rock", "paper", "scissors", "bomb"]

/-- `validate_move` from `game_tools.py`.  The Python reads the global
`game_state` and never writes it; embedded as taking the state and
returning it untouched alongside the result.  The Python reason string
quotes the move in single quotes; the quotes are elided here. -/
def validate_move (move : String) (is_user : Bool) (s : GameState) :
    ValidationResult × GameState :=
  let move := normalize_move move
  if move ∉ valid_moves then
    ({ valid := false,
       reason := "Invalid move " ++ move ++ ". Valid moves: rock, paper, scissors, bomb" }, s)
  else if move = "bomb" ∧ is_user ∧ s.user_bomb_used then
    ({ valid := false, reason := "You already used your bomb this game" }, s)
  else if move = "bomb" ∧ ¬is_user ∧ s.bot_bomb_used then
    ({ valid := false, reason := "Bot already used bomb" }, s)
  else
    ({ valid := true, reason := "Move is valid", move := some move }, s)

/-- Result dictionary of `resolve_round`. -/
structure RoundResult where
  winner : String
  user_move : String
  bot_move : String
deriving DecidableEq, Repr

/-- `resolve_round` from `game_tools.py`: bomb logic first, then the
standard rock-paper-scissors relation, with `bot` as the catch-all. -/
def resolve_round (user_move bot_move : String) : RoundResult :=
  let result :=
    if user_move = "bomb" ∧ bot_move = "bomb" then "draw"
    else if user_move = "bomb" then "user"
    else if bot_move = "bomb" then "bot"
    else if user_move = bot_move then "draw"
    else if (user_move = "rock" ∧ bot_move = "scissors") ∨
            (user_move = "scissors" ∧ bot_move = "paper") ∨
            (user_move = "paper" ∧ bot_move = "rock") then "user"
    else "bot"
  { winner := result, user_move := user_move, bot_move := bot_move }

/-- `update_game_state` from `game_tools.py`: the sole mutator.  Python
mutates the global and returns `game_state.to_dict()`; embedded as the
state transformer (the dictionary view is `GameState.to_dict`). -/
def update_game_state (user_move bot_move round_winner : Option String)
    (invalid_input : Bool) (s : GameState) : GameState :=
  let s := { s with current_round := s.current_round + 1 }
  let s := { s with last_user_move := user_move, last_bot_move := bot_move }
  let s : GameState :=
    if ¬invalid_input then
      let s : GameState :=
        if round_winner = some "user" then
          { s with user_score := s.user_score + 1, last_round_result := some "user" }
        else if round_winner = some "bot" then
          { s with bot_score := s.bot_score + 1, last_round_result := some "bot" }
        else
          { s with last_round_result := some "draw" }
      let s := if user_move = some "bomb" then { s with user_bomb_used := true } else s
      if bot_move = some "bomb" then { s with bot_bomb_used := true } else s
    else
      { s with last_round_result := some "invalid" }
  if s.current_round ≥ 3 then { s with game_over := true } else s

/-- The `available_moves` pool of `get_bot_move`. -/
def available_moves : List String := ["rock", "paper", "scissors"]

/-- `get_bot_move` from `game_tools.py`.  `r` models `random.random()`
and `choice` models `random.choice(available_moves)`.  The source's
nested ifs (bomb available and round ≥ 1, then 30% chance) are flattened
into one conjunction guarding the `"bomb"` return. -/
def get_bot_move (s : GameState) (r : ℚ) (choice : Fin 3) : String :=
  if ¬s.bot_bomb_used ∧ 1 ≤ s.current_round ∧ r < 3 / 10 then "bomb"
  else available_moves.get (Fin.cast rfl choice)

/-- `reset_game` from `game_tools.py`: resets the global state and
returns its dictionary view. -/
def reset_game (s : GameState) : List (String × DictValue) × GameState :=
  let s := s.reset
  (s.to_dict, s)

/-- Outcome tag of `GameReferee.process_user_input`.  The Python renders
each of these as a text response; the rendering carries no game logic. -/
inductive ProcessResult where
  | gameAlreadyOver
  | invalidRound (reason : String)
  | roundPlayed (user_move bot_move winner : String)
deriving DecidableEq, Repr

/-- `GameReferee.process_user_input` from `game_referee.py`: the single
round-processing entry point.  It refuses to play when `game_over` is
already true; otherwise it validates the user's move, wastes the round on
invalid input, and else generates a bot move, resolves, and updates.
Returns `none` in the impossible case where a valid validation result
lacks its `move` key (Python would raise `KeyError`). -/
def process_user_input (user_input : String) (r : ℚ) (choice : Fin 3)
    (s : GameState) : Option (ProcessResult × GameState) :=
  if s.game_over then
    some (ProcessResult.gameAlreadyOver, s)
  else
    let validation := (validate_move user_input true s).1
    if ¬validation.valid then
      let s1 := update_game_state (some user_input) none (some "invalid") true s
      some (ProcessResult.invalidRound validation.reason, s1)
    else
      match validation.move with
      | none => none
      | some mv =>
        let bm := get_bot_move s r choice
        let result := resolve_round mv bm
        let s1 := update_game_state (some mv) (some bm) (some result.winner) false s
        some (ProcessResult.roundPlayed mv bm result.winner, s1)

/-- The zero state a fresh match starts from (`GameState()` /
`reset_game`). -/
def initialState : GameState := {}

/-- One round-processing step of the engine: some user input and some
outcome of the bot's two random draws take `s` to `s1` via
`process_user_input`. -/
def Step (s s1 : GameState) : Prop :=
  ∃ inp r c res, process_user_input inp r c s = some (res, s1)

/-- States reachable from the zero state by round-processing steps
within one match. -/
def Reachable (s : GameState) : Prop :=
  Relation.ReflTransGen Step initialState s

/-- The standard beats-relation as the specification words it:
rock beats scissors, scissors beats paper, paper beats rock. -/
def beatsSpec (a b : String) : Prop :=
  (a = "rock" ∧ b = "scissors") ∨ (a = "scissors" ∧ b = "paper") ∨
  (a = "paper" ∧ b = "rock")

instance (a b : String) : Decidable (beatsSpec a b) := by
  unfold beatsSpec; infer_instance

/-- Round resolution as the specification describes it, for refinement
against `resolve_round`: draw on double bomb, a lone bomb wins, equal
non-bomb moves draw, the beats-relation decides the rest with `bot` as
the fallback. -/
def resolveRoundSpec (u b : String) : String :=
  if u = "bomb" then (if b = "bomb" then "draw" else "user")
  else if b = "bomb" then "bot"
  else if u = b then "draw"
  else if beatsSpec u b then "user"
  else "bot"

/-- C2: for every pair of validated move labels, `resolve_round` returns
exactly the winner prescribed by the specification's decision order
(bomb cases first, then equal-move draw, then the beats-relation, else
bot). -/
theorem resolve_round_matches_spec (u b : String)
    (hu : u ∈ valid_moves) (hb : b ∈ valid_moves) :
    (resolve_round u b).winner = resolveRoundSpec u b := by
  fin_cases hu <;> fin_cases hb <;> rfl

theorem resolve_round_matches_spec_witness :
    "rock" ∈ valid_moves ∧ "scissors" ∈ valid_moves ∧
    (resolve_round "rock" "scissors").winner = resolveRoundSpec "rock" "scissors" :=
  ⟨by decide, by decide,
    resolve_round_matches_spec "rock" "scissors" (by decide) (by decide)⟩

/-- C7: `reset` (and `reset_game` built on it) yields the exact zero
state regardless of the prior state: all counters 0, all flags false,
all last-round fields absent. -/
theorem reset_yields_zero_state (s : GameState) :
    s.reset =
      { current_round := 0, user_score := 0, bot_score := 0,
        user_bomb_used := false, bot_bomb_used := false, game_over := false,
        last_user_move := none, last_bot_move := none,
        last_round_result := none } ∧
    (reset_game s).2 =
      { current_round := 0, user_score := 0, bot_score := 0,
        user_bomb_used := false, bot_bomb_used := false, game_over := false,
        last_user_move := none, last_bot_move := none,
        last_round_result := none } :=
  ⟨rfl, rfl⟩

/-- C9: serialization round-trips — `from_dict (to_dict s)` rebuilds `s`
exactly — and `to_dict` exposes exactly the nine state fields, in order. -/
theorem to_dict_from_dict_roundtrip (s : GameState) :
    GameState.from_dict (GameState.to_dict s) = some s ∧
    (GameState.to_dict s).map Prod.fst =
      ["current_round", "user_score", "bot_score", "user_bomb_used",
       "bot_bomb_used", "game_over", "last_user_move", "last_bot_move",
       "last_round_result"] :=
  ⟨rfl, rfl⟩

/-- C10: `resolve_round` is total over arbitrary strings: the winner is
always one of user/bot/draw, and any unequal non-bomb pair outside the
three user-winning combinations — unrecognized labels included — goes to
the bot. -/
theorem resolve_round_total (u b : String) :
    (resolve_round u b).winner ∈ ["user", "bot", "draw"] ∧
    (u ≠ "bomb" → b ≠ "bomb" → u ≠ b → ¬beatsSpec u b →
      (resolve_round u b).winner = "bot") := by
  unfold resolve_round beatsSpec
  constructor
  · split_ifs <;> simp
  · intro h1 h2 h3 h4
    split_ifs <;> simp_all

theorem resolve_round_total_witness :
    "foo" ≠ "bomb" ∧ "bar" ≠ "bomb" ∧ "foo" ≠ "bar" ∧ ¬beatsSpec "foo" "bar" ∧
    (resolve_round "foo" "bar").winner = "bot" :=
  ⟨by decide, by decide, by decide, by decide,
    (resolve_round_total "foo" "bar").2 (by decide) (by decide) (by decide)
      (by decide)⟩

set_option maxHeartbeats 1000000 in
/-- Closed form of `update_game_state`: each field of the updated state as
a function of the arguments and the previous state. -/
theorem update_game_state_eq (um bm rw : Option String) (ii : Bool) (s : GameState) :
    update_game_state um bm rw ii s =
      { current_round := s.current_round + 1,
        user_score := s.user_score + (if ¬ii ∧ rw = some "user" then 1 else 0),
        bot_score := s.bot_score + (if ¬ii ∧ rw = some "bot" then 1 else 0),
        user_bomb_used := if ¬ii ∧ um = some "bomb" then true else s.user_bomb_used,
        bot_bomb_used := if ¬ii ∧ bm = some "bomb" then true else s.bot_bomb_used,
        game_over := if 3 ≤ s.current_round + 1 then true else s.game_over,
        last_user_move := um,
        last_bot_move := bm,
        last_round_result :=
          some (if ii then "invalid"
                else if rw = some "user" then "user"
                else if rw = some "bot" then "bot"
                else "draw") } := by
  cases ii <;>
    simp only [update_game_state, not_true, not_false_iff, if_true, if_false,
      Bool.false_eq_true, ite_true, ite_false] <;>
    split_ifs <;> simp_all

/-- C3: an invalid round increments `current_round` by exactly 1, records
the `invalid` result, and leaves both scores and both bomb flags exactly
as they were. -/
theorem update_invalid_frame (s : GameState) (um bm rw : Option String) :
    (update_game_state um bm rw true s).current_round = s.current_round + 1 ∧
    (update_game_state um bm rw true s).last_round_result = some "invalid" ∧
    (update_game_state um bm rw true s).user_score = s.user_score ∧
    (update_game_state um bm rw true s).bot_score = s.bot_score ∧
    (update_game_state um bm rw true s).user_bomb_used = s.user_bomb_used ∧
    (update_game_state um bm rw true s).bot_bomb_used = s.bot_bomb_used := by
  rw [update_game_state_eq]
  simp

/-- C4: a valid round with winner in {user, bot, draw} adds exactly 1 to
the winner's score (none on a draw), records the winner, and marks the
bomb flag of each side that played bomb, win or lose. -/
theorem update_valid_round (s : GameState) (um bm : Option String)
    (w : String) (hw : w ∈ ["user", "bot", "draw"]) :
    (update_game_state um bm (some w) false s).current_round = s.current_round + 1 ∧
    (update_game_state um bm (some w) false s).last_round_result = some w ∧
    (update_game_state um bm (some w) false s).user_score =
      s.user_score + (if w = "user" then 1 else 0) ∧
    (update_game_state um bm (some w) false s).bot_score =
      s.bot_score + (if w = "bot" then 1 else 0) ∧
    (um = some "bomb" → (update_game_state um bm (some w) false s).user_bomb_used = true) ∧
    (bm = some "bomb" → (update_game_state um bm (some w) false s).bot_bomb_used = true) := by
  simp only [List.mem_cons, List.not_mem_nil, or_false] at hw
  rcases hw with rfl | rfl | rfl <;> simp [update_game_state_eq] <;> tauto

theorem update_valid_round_witness :
    "draw" ∈ ["user", "bot", "draw"] ∧
    ((update_game_state (some "bomb") (some "bomb") (some "draw") false
        {}).user_bomb_used = true) :=
  ⟨by decide,
    (update_valid_round {} (some "bomb") (some "bomb") "draw" (by decide)).2.2.2.2.1
      rfl⟩

/-- C1: when `game_over` is already true, the round-processing entry
point refuses to play: it returns the stable already-over indication and
the state it returns is the input state, every field unchanged. -/
theorem process_rejected_when_over (s : GameState) (inp : String) (r : ℚ)
    (c : Fin 3) (h : s.game_over = true) :
    process_user_input inp r c s = some (ProcessResult.gameAlreadyOver, s) := by
  unfold process_user_input
  simp [h]

theorem process_rejected_when_over_witness :
    (GameState.game_over { game_over := true } = true) ∧
    process_user_input "rock" 0 0 { game_over := true } =
      some (ProcessResult.gameAlreadyOver, { game_over := true }) :=
  ⟨rfl, process_rejected_when_over { game_over := true } "rock" 0 0 rfl⟩

/-- C8: whatever the random draws, the bot never picks bomb on the first
round (`current_round == 0`) or after its bomb is spent: the result is
one of the three standard moves. -/
theorem bot_move_no_early_or_double_bomb (s : GameState) (r : ℚ) (c : Fin 3)
    (h : s.current_round = 0 ∨ s.bot_bomb_used = true) :
    get_bot_move s r c ∈ available_moves ∧ get_bot_move s r c ≠ "bomb" := by
  unfold get_bot_move
  split
  · rename_i hcond
    exfalso
    rcases h with h | h
    · rw [h] at hcond
      exact absurd hcond.2.1 (by omega)
    · exact hcond.1 h
  · fin_cases c <;> exact ⟨by decide, by decide⟩

theorem bot_move_no_early_or_double_bomb_witness :
    (GameState.current_round {} = 0 ∨ GameState.bot_bomb_used {} = true) ∧
    (get_bot_move {} 0 0 ∈ available_moves ∧ get_bot_move {} 0 0 ≠ "bomb") :=
  ⟨Or.inl rfl, bot_move_no_early_or_double_bomb {} 0 0 (Or.inl rfl)⟩

/-- C6: `validate_move` returns the state untouched, rejects exactly when
the lowercased, trimmed text is not one of the four labels or normalizes
to bomb while the submitting side's bomb flag is already set, and on
success carries the normalized label. -/
theorem validate_move_spec (mv : String) (is_user : Bool) (s : GameState) :
    (validate_move mv is_user s).2 = s ∧
    ((validate_move mv is_user s).1.valid = false ↔
      (normalize_move mv ∉ valid_moves ∨
        (normalize_move mv = "bomb" ∧
          (if is_user then s.user_bomb_used else s.bot_bomb_used) = true))) ∧
    ((validate_move mv is_user s).1.valid = true →
      (validate_move mv is_user s).1.move = some (normalize_move mv)) := by
  cases is_user <;>
    · simp only [validate_move]
      split_ifs <;> simp_all

theorem validate_move_spec_witness :
    normalize_move " BoMb" = "bomb" ∧
    GameState.user_bomb_used { user_bomb_used := true } = true ∧
    (validate_move " BoMb" true { user_bomb_used := true }).1.valid = false :=
  ⟨by decide, rfl,
    ((validate_move_spec " BoMb" true { user_bomb_used := true }).2.1).mpr
      (Or.inr ⟨by decide, by decide⟩)⟩

/-- One case analysis of a round-processing step: either the match was
already over and the state is returned unchanged, or the match was live
and the new state is some `update_game_state` of the old one. -/
theorem step_cases {s s1 : GameState} (h : Step s s1) :
    (s.game_over = true ∧ s1 = s) ∨
    (s.game_over = false ∧ ∃ um bm rw ii, s1 = update_game_state um bm rw ii s) := by
  obtain ⟨inp, r, c, res, hres⟩ := h
  simp only [process_user_input] at hres
  split at hres
  · rename_i hgo
    simp only [Option.some.injEq, Prod.mk.injEq] at hres
    exact Or.inl ⟨hgo, hres.2.symm⟩
  · rename_i hgo
    have hgo2 : s.game_over = false := by simpa using hgo
    refine Or.inr ⟨hgo2, ?_⟩
    split at hres
    · simp only [Option.some.injEq, Prod.mk.injEq] at hres
      exact ⟨_, _, _, _, hres.2.symm⟩
    · split at hres
      · exact absurd hres (by simp)
      · simp only [Option.some.injEq, Prod.mk.injEq] at hres
        exact ⟨_, _, _, _, hres.2.symm⟩

/-- The inductive invariant behind the round bound: the counter never
exceeds 3, and while the match is live it is strictly below 3. -/
def RoundInv (s : GameState) : Prop :=
  s.current_round ≤ 3 ∧ (s.game_over = false → s.current_round < 3)

theorem step_preserves_inv {s s1 : GameState} (h : Step s s1)
    (hi : RoundInv s) :
    RoundInv s1 ∧ s.current_round ≤ s1.current_round := by
  rcases step_cases h with ⟨hgo, rfl⟩ | ⟨hgo, um, bm, rw, ii, rfl⟩
  · exact ⟨hi, le_refl _⟩
  · have hlt := hi.2 hgo
    rw [update_game_state_eq]
    refine ⟨⟨?_, ?_⟩, ?_⟩
    · show s.current_round + 1 ≤ 3
      omega
    · intro hg
      have hg2 : (if 3 ≤ s.current_round + 1 then true else s.game_over) = false := hg
      split_ifs at hg2 with h3
      show s.current_round + 1 < 3
      omega
    · show s.current_round ≤ s.current_round + 1
      omega

theorem reachable_inv (s : GameState) (h : Reachable s) : RoundInv s := by
  induction h with
  | refl => exact ⟨by simp [initialState], fun _ => by simp [initialState]⟩
  | tail h1 h2 ih => exact (step_preserves_inv h2 ih).1

/-- C5: in every state reachable from the zero state by round-processing
steps, `current_round` stays in [0, 3], and no further step ever
decreases it. -/
theorem current_round_bounded_monotone (s : GameState) (h : Reachable s) :
    s.current_round ≤ 3 ∧
    ∀ s1, Step s s1 → s.current_round ≤ s1.current_round := by
  have hi := reachable_inv s h
  exact ⟨hi.1, fun s1 hs => (step_preserves_inv hs hi).2⟩

theorem current_round_bounded_monotone_witness :
    Reachable initialState ∧ initialState.current_round ≤ 3 :=
  ⟨Relation.ReflTransGen.refl,
    (current_round_bounded_monotone initialState Relation.ReflTransGen.refl).1⟩
